import Mathlib

/-!
Verification development for the social-analyzer validation, configuration
and error-taxonomy modules.  The JavaScript sources (`modules/config.js`,
`modules/error-handler.js`, `modules/validation.js`, `modules/security.js`)
are embedded shallowly: JS strings become `String`, JS objects become
structures or association lists, thrown `ValidationError`s become `Except`
results, and the `NODE_ENV === 'production'` flag becomes an explicit
`Bool` argument.
-/

set_option autoImplicit false

/-- Equality on `Except` results is decidable when it is on both sides. -/
instance exceptDecEq {ε α : Type} [DecidableEq ε] [DecidableEq α] :
    DecidableEq (Except ε α) := fun a b =>
  match a, b with
  | .error e, .error e' =>
    if h : e = e' then .isTrue (by rw [h]) else .isFalse (by simp [h])
  | .ok v, .ok v' =>
    if h : v = v' then .isTrue (by rw [h]) else .isFalse (by simp [h])
  | .error _, .ok _ => .isFalse (by simp)
  | .ok _, .error _ => .isFalse (by simp)

/-! ## JavaScript value basics -/

/-- A JavaScript value as it can arrive at a validation function:
a string, `null`, `undefined`, a number, or a boolean. -/
inductive JSVal where
  | vstr (s : String)
  | vnull
  | vundef
  | vnum (n : Int)
  | vbool (b : Bool)
  deriving DecidableEq, Repr

/-- JavaScript truthiness of a `JSVal` (`""`, `null`, `undefined`, `0`,
`false` are falsy). -/
def jsTruthy : JSVal → Bool
  | .vstr s => s ≠ ""
  | .vnull => false
  | .vundef => false
  | .vnum n => n ≠ 0
  | .vbool b => b

/-- Whitespace characters removed by `String.prototype.trim`. -/
def isJsSpace (c : Char) : Bool :=
  c = ' ' ∨ c = '\t' ∨ c = '\n' ∨ c = '\r' ∨ c = '\x0b' ∨ c = '\x0c'

/-- The `String.prototype.trim`: drop leading and trailing whitespace. -/
def jsTrim (s : String) : String :=
  String.mk (((s.toList.dropWhile isJsSpace).reverse.dropWhile isJsSpace).reverse)

/-- ASCII lower-casing of one character, as `toLowerCase` acts on the
character classes used by the sources. -/
def charLower (c : Char) : Char :=
  if 'A' ≤ c ∧ c ≤ 'Z' then Char.ofNat (c.toNat + 32) else c

/-- ASCII upper-casing of one character, as `toUpperCase` acts on the
character classes used by the sources. -/
def charUpper (c : Char) : Char :=
  if 'a' ≤ c ∧ c ≤ 'z' then Char.ofNat (c.toNat - 32) else c

/-- The `String.prototype.toLowerCase` on the ASCII range. -/
def jsToLower (s : String) : String := String.mk (s.toList.map charLower)

/-- The `String.prototype.toUpperCase` on the ASCII range. -/
def jsToUpper (s : String) : String := String.mk (s.toList.map charUpper)

/-- The `String.prototype.split(sep)` for a one-character separator. -/
def splitOnChar (c : Char) : List Char → List (List Char)
  | [] => [[]]
  | x :: xs =>
    match splitOnChar c xs with
    | [] => [[]]
    | h :: t => if x = c then [] :: h :: t else (x :: h) :: t

/-- Does `pre` occur as a prefix of `l`? -/
def isPrefixList : List Char → List Char → Bool
  | [], _ => true
  | _ :: _, [] => false
  | a :: as, b :: bs => a = b && isPrefixList as bs

/-- Does `needle` occur as a contiguous substring of `hay`
(`String.prototype.includes` / the regex `/needle/` test)? -/
def containsSub (needle : List Char) : List Char → Bool
  | [] => needle.isEmpty
  | x :: xs => isPrefixList needle (x :: xs) || containsSub needle xs

/-! ## Error handler (`modules/error-handler.js`) -/

namespace ErrorHandler

/-- The fields of a JavaScript error object read by `createErrorResponse`:
`name`, `message`, `userMessage`, `code`, `stack`, `statusCode`,
`instanceof AppError`, `type`, `details`.  Absent string fields are `""`
and an absent `statusCode` is `0`, mirroring JS falsiness; `details` is an
opaque structured payload (`none` = `null`). -/
structure JSError where
  name : String := ""
  message : String := ""
  userMessage : String := ""
  code : String := ""
  stack : String := ""
  statusCode : Nat := 0
  isAppError : Bool := false
  type : String := ""
  details : Option String := none
  deriving DecidableEq, Repr

/-- The `details` field of a response record: either the `AppError`'s own
structured details or the `{ name, code }` pair attached for unknown
errors in development/verbose mode. -/
inductive RespDetails where
  | fromErr (d : String)
  | nameCode (name : String) (code : String)
  deriving DecidableEq, Repr

/-- The wire-facing error response record built by `createErrorResponse`
(the ISO-8601 `timestamp` field is the wall clock at call time and is not
modelled). -/
structure ErrorResponse where
  error : Bool := true
  message : String := "An error occurred"
  type : String := "internal_error"
  statusCode : Option Nat := none
  stack : Option String := none
  details : Option RespDetails := none
  deriving DecidableEq, Repr

/-- The `createErrorResponse(err, req)` from `modules/error-handler.js`.
`isDevelopment` is `process.env.NODE_ENV !== 'production'` and `verbose`
is the `VERBOSE` configuration flag read through `getConfig`. -/
def createErrorResponse (isDevelopment verbose : Bool) (err : JSError) : ErrorResponse :=
  let response : ErrorResponse := {}
  if err.name = "ValidationError" then
    { response with
      message := if err.userMessage ≠ "" then err.userMessage else err.message
      type := "validation_error"
      statusCode := some 400 }
  else if err.isAppError then
    { response with
      message := err.message
      type := err.type
      statusCode := some err.statusCode
      details :=
        match err.details with
        | some d => if isDevelopment then some (.fromErr d) else none
        | none => none }
  else if err.code = "ECONNREFUSED" then
    { response with
      message := "Service temporarily unavailable"
      type := "network_error"
      statusCode := some 503 }
  else if err.code = "ETIMEDOUT" ∨ err.name = "TimeoutError" then
    { response with
      message := "Request timeout"
      type := "timeout_error"
      statusCode := some 504 }
  else if err.code = "ENOENT" then
    { response with
      message := "Resource not found"
      type := "not_found"
      statusCode := some 404 }
  else
    let r :=
      if isDevelopment ∨ verbose then
        { response with
          message := err.message
          stack := some err.stack
          details := some (.nameCode err.name err.code) }
      else response
    { r with statusCode := some (if err.statusCode ≠ 0 then err.statusCode else 500) }

/-- An error object is unclassified when it is neither a `ValidationError`
nor an `AppError` and carries none of the known transport signatures. -/
def Unclassified (err : JSError) : Prop :=
  err.name ≠ "ValidationError" ∧ err.isAppError = false ∧
  err.code ≠ "ECONNREFUSED" ∧ err.code ≠ "ETIMEDOUT" ∧
  err.name ≠ "TimeoutError" ∧ err.code ≠ "ENOENT"

end ErrorHandler

/-! ## The WHATWG `new URL(...)` constructor

`modules/validation.js` and `modules/config.js` both parse URLs with the
host platform's `new URL(url)`.  The model below covers the
`scheme://[userinfo@]host[/path][?query][#fragment]` shape those call
sites rely on: scheme up to the first `:`, a mandatory `//`, the
authority up to the first `/`, `?` or `#`, credentials before the last
`@`, and the `pathname`/`hostname` components the sources read.  An input
outside this shape makes the constructor throw, which the model renders
as `none`. -/

namespace URLModel

/-- Split a character list at the first occurrence of `c` (the separator
is dropped); `none` when `c` does not occur. -/
def splitAtFirst (c : Char) : List Char → Option (List Char × List Char)
  | [] => none
  | x :: xs =>
    if x = c then some ([], xs)
    else
      match splitAtFirst c xs with
      | none => none
      | some (a, b) => some (x :: a, b)

/-- Split a character list at the last occurrence of `c` (the separator
is dropped); `none` when `c` does not occur. -/
def splitAtLast (c : Char) (l : List Char) : Option (List Char × List Char) :=
  match splitAtFirst c l.reverse with
  | none => none
  | some (x, y) => some (y.reverse, x.reverse)

/-- A character that ends the authority component. -/
def isAuthorityEnd (c : Char) : Bool :=
  c = '/' ∨ c = '?' ∨ c = '#'

/-- A character that ends the path component. -/
def isPathEnd (c : Char) : Bool :=
  c = '?' ∨ c = '#'

/-- Split the authority into optional userinfo (before the last `@`) and
host (after it). -/
def splitAuthority (authority : List Char) : Option (List Char) × List Char :=
  match splitAtLast '@' authority with
  | some (ui, h) => (some ui, h)
  | none => (none, authority)

/-- Split the userinfo into username (before the first `:`) and
password (after it). -/
def credsFrom : Option (List Char) → List Char × List Char
  | none => ([], [])
  | some ui =>
    match splitAtFirst ':' ui with
    | none => (ui, [])
    | some (u, p) => (u, p)

/-- The `pathname` component: the path up to any query or fragment, or
`/` when the authority is followed by no path. -/
def pathnameFrom (after : List Char) : List Char :=
  match after with
  | '/' :: _ => after.takeWhile (fun c => !isPathEnd c)
  | _ => ['/']

/-- The components of a parsed URL that the sources read:
`protocol` (scheme plus the trailing colon), `username`, `password`,
`host` (including any port) and `pathname`. -/
structure URLParts where
  protocol : String
  username : String
  password : String
  host : String
  pathname : String
  deriving DecidableEq, Repr

/-- The `new URL(url)`: `none` models the constructor throwing. -/
def parseUrl (url : String) : Option URLParts :=
  match splitAtFirst ':' url.toList with
  | none => none
  | some (scheme, rest) =>
    if scheme = [] then none
    else
      match rest with
      | '/' :: '/' :: rest2 =>
        let authority := rest2.takeWhile (fun c => !isAuthorityEnd c)
        let after := rest2.dropWhile (fun c => !isAuthorityEnd c)
        let userinfo := (splitAuthority authority).1
        let host := (splitAuthority authority).2
        if host = [] then none
        else
          some ⟨String.mk (scheme ++ [':']), String.mk (credsFrom userinfo).1,
                String.mk (credsFrom userinfo).2, String.mk host,
                String.mk (pathnameFrom after)⟩
      | _ => none

/-- The `parsed.hostname`: the host without its port. -/
def hostnameOf (p : URLParts) : String :=
  String.mk (p.host.toList.takeWhile (fun c => c ≠ ':'))

end URLModel

/-! ## Input validation (`modules/validation.js`) -/

namespace Validation

/-- The `ValidationError` class: `field`, `message`, and the derived
`userMessage = Invalid ${field}: ${message}`. -/
structure VError where
  field : String
  message : String
  userMessage : String
  deriving DecidableEq, Repr

/-- The `new ValidationError(field, message)`. -/
def mkVError (field message : String) : VError :=
  ⟨field, message, "Invalid " ++ field ++ ": " ++ message⟩

/-- The `USERNAME_RULES.pattern` character class `[a-zA-Z0-9._-]`. -/
def usernameChar (c : Char) : Bool :=
  ('a' ≤ c ∧ c ≤ 'z') ∨ ('A' ≤ c ∧ c ≤ 'Z') ∨ ('0' ≤ c ∧ c ≤ '9') ∨
  c = '.' ∨ c = '_' ∨ c = '-'

/-- The `USERNAME_RULES.pattern.test`: the regex `/^[a-zA-Z0-9._-]+$/`. -/
def usernamePatternTest (s : String) : Bool :=
  s.toList ≠ [] ∧ s.toList.all usernameChar

/-- The `USERNAME_RULES.blacklist`. -/
def usernameBlacklist : List String :=
  ["SELECT", "INSERT", "UPDATE", "DELETE", "DROP", "CREATE", "ALTER",
   "EXEC", "EXECUTE", "SCRIPT", "JAVASCRIPT"]

/-- The `USERNAME_RULES.pathTraversal.test`: the regex `/\.\./`. -/
def pathTraversalTest (s : String) : Bool :=
  containsSub ['.', '.'] s.toList

/-- The `validateUsername(username)`; a thrown `ValidationError` becomes
`Except.error`. -/
def validateUsername (username : JSVal) : Except VError String :=
  if ¬ jsTruthy username then
    .error (mkVError "username" "Username is required")
  else
    match username with
    | .vstr raw =>
      let username := jsTrim raw
      if username.toList.length < 1 then
        .error (mkVError "username" "Username must be at least 1 character")
      else if username.toList.length > 100 then
        .error (mkVError "username" "Username cannot exceed 100 characters")
      else if ¬ usernamePatternTest username then
        .error (mkVError "username"
          "Username can only contain letters, numbers, dots, underscores, and hyphens")
      else if pathTraversalTest username then
        .error (mkVError "username" "Invalid username format")
      else if (usernameBlacklist.any fun blocked =>
          containsSub blocked.toList (jsToUpper username).toList) then
        .error (mkVError "username" "Username contains blocked keywords")
      else
        .ok username
    | _ => .error (mkVError "username" "Username must be a string")

/-- The list built by `usernames.split(',').map(u => u.trim()).filter(u => u)`. -/
def splitTrimFilter (s : String) : List String :=
  ((splitOnChar ',' s.toList).map (fun l => jsTrim (String.mk l))).filter (fun u => u ≠ "")

/-- The element loop of `validateUsernames`: validate each username in
order, converting the first failure at 0-based index `i` into the
batch-level error with its 1-based position. -/
def validateEach : Nat → List String → Except VError (List String)
  | _, [] => .ok []
  | i, u :: rest =>
    match validateUsername (.vstr u) with
    | .error e =>
      .error (mkVError "usernames"
        ("Username #" ++ toString (i + 1) ++ " is invalid: " ++ e.userMessage))
    | .ok v =>
      match validateEach (i + 1) rest with
      | .error e => .error e
      | .ok vs => .ok (v :: vs)

/-- The `validateUsernames(usernames)`. -/
def validateUsernames (usernames : JSVal) : Except VError (List String) :=
  if ¬ jsTruthy usernames then
    .error (mkVError "usernames" "At least one username is required")
  else
    match usernames with
    | .vstr s =>
      let usernameList := splitTrimFilter s
      if usernameList.length = 0 then
        .error (mkVError "usernames" "At least one valid username is required")
      else if usernameList.length > 50 then
        .error (mkVError "usernames" "Maximum 50 usernames allowed per request")
      else
        validateEach 0 usernameList
    | _ => .error (mkVError "usernames" "Usernames must be a string")

/-- Models the `validator` package's `isURL` under the options used by
`validateUrl` (`protocols: ['http','https']`, `require_protocol: true`,
`require_valid_protocol: true`): the string must start with `http://` or
`https://`, continue with at least one character, and contain no
whitespace.  This is an external dependency of the repository, modelled
only as far as the call site relies on it. -/
def isURLCheck (s : String) : Bool :=
  let ok (proto : String) : Bool :=
    isPrefixList proto.toList s.toList ∧ s.toList.length > proto.toList.length
  (ok "http://" ∨ ok "https://") ∧ s.toList.all (fun c => !isJsSpace c)

/-- The private/loopback hostname patterns from `validateUrl`, applied to
the already lower-cased hostname. -/
def isPrivateHostname (h : String) : Bool :=
  let allDigits (l : List Char) : Bool := !l.isEmpty && l.all Char.isDigit
  let seg172 (x : List Char) : Bool :=
    match x with
    | ['1', d] => decide ('6' ≤ d ∧ d ≤ '9')
    | ['2', d] => d.isDigit
    | ['3', d] => d = '0' || d = '1'
    | _ => false
  let quad (firstOk : List Char → Bool) (secondOk : List Char → Bool) : Bool :=
    match splitOnChar '.' h.toList with
    | [w, x, y, z] => firstOk w && secondOk x && allDigits y && allDigits z
    | _ => false
  h = "localhost" ||
  quad (fun w => String.mk w = "127") allDigits ||
  quad (fun w => String.mk w = "10") allDigits ||
  quad (fun w => String.mk w = "172") seg172 ||
  quad (fun w => String.mk w = "192") (fun x => String.mk x = "168") ||
  h = "::1" ||
  isPrefixList "fe80:".toList h.toList

/-- The `validateUrl(url, options)`; `isProduction` is
`process.env.NODE_ENV === 'production'`. -/
def validateUrl (isProduction : Bool) (url : JSVal) (optional : Bool := false) :
    Except VError String :=
  if ¬ jsTruthy url then
    if optional then .ok "" else .error (mkVError "url" "URL is required")
  else
    match url with
    | .vstr raw =>
      let url := jsTrim raw
      if ¬ isURLCheck url then
        .error (mkVError "url" "Invalid URL format")
      else
        match URLModel.parseUrl url with
        | none => .error (mkVError "url" "Invalid URL format")
        | some parsed =>
          if isProduction then
            let hostname := jsToLower (URLModel.hostnameOf parsed)
            if isPrivateHostname hostname then
              .error (mkVError "url" "Private/internal URLs are not allowed")
            else .ok url
          else .ok url
    | _ => .error (mkVError "url" "URL must be a string")

/-- The `validateMode(mode)`. -/
def validateMode (mode : JSVal) : Except VError String :=
  if ¬ jsTruthy mode then
    .ok "fast"
  else
    match mode with
    | .vstr s =>
      let m := jsToLower (jsTrim s)
      if m = "fast" ∨ m = "slow" ∨ m = "special" then .ok m
      else .error (mkVError "mode" "Mode must be one of: fast, slow, special")
    | _ => .error (mkVError "mode" "Mode must be a string")

/-- A control character stripped by `sanitizeText`
(the regex class `[\x00-\x1F\x7F-\x9F]`). -/
def isCtlChar (c : Char) : Bool :=
  c.toNat ≤ 0x1F ∨ (0x7F ≤ c.toNat ∧ c.toNat ≤ 0x9F)

/-- The `text.replace(/c/g, rep)` for a one-character pattern. -/
def replCh (c : Char) (rep : List Char) : List Char → List Char
  | [] => []
  | x :: xs => if x = c then rep ++ replCh c rep xs else x :: replCh c rep xs

/-- The `sanitizeText(text)`: empty string for absent or non-string input,
otherwise strip control characters and entity-encode `& < > " ' /`. -/
def sanitizeText (text : JSVal) : String :=
  match text with
  | .vstr s =>
    if s = "" then ""
    else
      let stripped := s.toList.filter (fun c => !isCtlChar c)
      String.mk <|
        replCh '/' "&#x2F;".toList <|
        replCh '\'' "&#x27;".toList <|
        replCh '"' "&quot;".toList <|
        replCh '>' "&gt;".toList <|
        replCh '<' "&lt;".toList <|
        replCh '&' "&amp;".toList stripped
  | _ => ""

end Validation

/-! ## Configuration (`modules/config.js`) -/

namespace Config

/-- A typed configuration value after coercion: string, number, boolean
or array.  JS numbers are modelled as integers, which covers every value
the schema's numeric fields accept and every default. -/
inductive CValue where
  | s (v : String)
  | n (v : Int)
  | b (v : Bool)
  | arr (v : List String)
  deriving DecidableEq, Repr

/-- JS truthiness of a configuration value (used by `getSanitized` and by
the `SESSION_SECRET` checks). -/
def cvTruthy : CValue → Bool
  | .s v => v ≠ ""
  | .n v => v ≠ 0
  | .b v => v
  | .arr _ => true

/-- The declared `type` of a schema field. -/
inductive CType where
  | number
  | boolean
  | string
  | array
  deriving DecidableEq, Repr

/-- One entry of `CONFIG_SCHEMA`: type tag, default, the constraint
parameters, and the `required`/`optional` flags.  A `pattern` is the
Boolean test of the schema's regex on the raw value. -/
structure FieldSchema where
  type : CType
  default : CValue
  required : Bool := false
  optional : Bool := false
  min : Option Int := none
  max : Option Int := none
  minLength : Option Nat := none
  pattern : Option (String → Bool) := none
  enum : Option (List String) := none
  separator : Char := ','

/-- The `Number(value)` restricted to optionally signed decimal integers
after trimming; `none` models `NaN`. -/
def jsNumber (s : String) : Option Int :=
  let t := (jsTrim s).toList
  let core : List Char → Option Int := fun ds =>
    if ds ≠ [] ∧ ds.all Char.isDigit then
      some (ds.foldl (fun acc d => acc * 10 + (d.toNat - '0'.toNat)) 0)
    else none
  match t with
  | '-' :: rest => (core rest).map Int.neg
  | '+' :: rest => core rest
  | _ => core t

/-- The result record of `validateValue`: `{ valid, errors, value }`. -/
structure VVResult where
  valid : Bool
  errors : List String
  value : CValue
  deriving DecidableEq, Repr

/-- The `validateValue(key, value, schema)` from `modules/config.js`.  The
raw value is the environment lookup `process.env[key]`
(`none` = absent). -/
def validateValue (key : String) (value : Option String) (schema : FieldSchema) : VVResult :=
  if schema.required ∧ (value = none ∨ value = some "") then
    { valid := false, errors := [key ++ " is required but not set"], value := schema.default }
  else if value = none ∨ value = some "" then
    { valid := true, errors := [], value := schema.default }
  else
    match value with
    | none => { valid := true, errors := [], value := schema.default }
    | some raw =>
      match schema.type with
      | .number =>
        match jsNumber raw with
        | none =>
          { valid := false, errors := [key ++ " must be a number, got: " ++ raw],
            value := .s raw }
        | some num =>
          let errs :=
            (match schema.min with
             | some m => if num < m then
                 [key ++ " must be >= " ++ toString m ++ ", got: " ++ toString num] else []
             | none => []) ++
            (match schema.max with
             | some m => if num > m then
                 [key ++ " must be <= " ++ toString m ++ ", got: " ++ toString num] else []
             | none => [])
          { valid := errs.isEmpty, errors := errs, value := .n num }
      | .boolean =>
        { valid := true, errors := [],
          value := .b (jsToLower raw = "true" || raw = "1") }
      | .string =>
        let errs :=
          (match schema.minLength with
           | some ml => if raw.toList.length < ml then
               [key ++ " must be at least " ++ toString ml ++ " characters, got: " ++
                toString raw.toList.length] else []
           | none => []) ++
          (match schema.pattern with
           | some test => if ¬ test raw then [key ++ " has invalid format"] else []
           | none => []) ++
          (match schema.enum with
           | some allowed => if ¬ allowed.contains raw then
               [key ++ " must be one of: " ++ String.intercalate ", " allowed ++
                ", got: " ++ raw] else []
           | none => [])
        { valid := errs.isEmpty, errors := errs, value := .s raw }
      | .array =>
        { valid := true, errors := [],
          value := .arr (((splitOnChar schema.separator raw.toList).map
            (fun l => jsTrim (String.mk l))).filter (fun v => v ≠ "")) }

/-- The `HOST` pattern `/^(localhost|127\.0\.0\.1|0\.0\.0\.0|[\w\.-]+)$/`:
the final alternative subsumes the first three, so the regex accepts
exactly the non-empty strings of word characters, dots and hyphens. -/
def hostPattern (s : String) : Bool :=
  s.toList ≠ [] && s.toList.all fun c =>
    c.isAlphanum || c = '_' || c = '.' || c = '-'

/-- The `SELENIUM_GRID_URL`/`HTTP_PROXY` pattern `/^(https?:\/\/.+|)$/`. -/
def httpUrlPattern (s : String) : Bool :=
  s = "" ||
  ((isPrefixList "http://".toList s.toList && s.toList.length > 7) ||
   (isPrefixList "https://".toList s.toList && s.toList.length > 8))

/-- The `CONFIG_SCHEMA`, in declared order.  `SESSION_SECRET.required`
captures `process.env.NODE_ENV === 'production'` at module load, hence
the `isProduction` parameter. -/
def CONFIG_SCHEMA (isProduction : Bool) : List (String × FieldSchema) :=
  [("PORT", { type := .number, default := .n 9005, min := some 1024, max := some 65535 }),
   ("HOST", { type := .string, default := .s "localhost", pattern := some hostPattern }),
   ("VERBOSE", { type := .boolean, default := .b false }),
   ("GOOGLE_API_KEY", { type := .string, default := .s "", optional := true }),
   ("GOOGLE_API_CS", { type := .string, default := .s "", optional := true }),
   ("SELENIUM_GRID_URL",
    { type := .string, default := .s "", optional := true, pattern := some httpUrlPattern }),
   ("HTTP_PROXY",
    { type := .string, default := .s "", optional := true, pattern := some httpUrlPattern }),
   ("USER_AGENT",
    { type := .string,
      default := .s "Mozilla/5.0 (X11; Ubuntu; Linux x86_64; rv:102.0) Gecko/20100101 Firefox/102.0" }),
   ("SESSION_SECRET",
    { type := .string, default := .s "", minLength := some 32, required := isProduction }),
   ("ENABLE_CORS", { type := .boolean, default := .b false }),
   ("CORS_ORIGINS", { type := .array, default := .arr ["http://localhost:3000"] }),
   ("RATE_LIMIT_MAX", { type := .number, default := .n 100, min := some 1, max := some 10000 }),
   ("RATE_LIMIT_WINDOW", { type := .number, default := .n 15, min := some 1, max := some 1440 }),
   ("DETECTION_LEVEL",
    { type := .string, default := .s "high", enum := some ["extreme", "high", "normal", "low"] }),
   ("MAX_FAST_WORKERS", { type := .number, default := .n 15, min := some 1, max := some 50 }),
   ("MAX_SLOW_WORKERS", { type := .number, default := .n 8, min := some 1, max := some 20 }),
   ("MAX_SPECIAL_WORKERS", { type := .number, default := .n 5, min := some 1, max := some 20 }),
   ("REQUEST_TIMEOUT", { type := .number, default := .n 5, min := some 1, max := some 60 }),
   ("ENABLE_FILE_LOGGING", { type := .boolean, default := .b true }),
   ("LOG_DIR", { type := .string, default := .s "./logs" }),
   ("LOG_LEVEL",
    { type := .string, default := .s "info", enum := some ["error", "warn", "info", "debug"] }),
   ("SITES_DATA_PATH", { type := .string, default := .s "./data/sites.json" }),
   ("NAMES_DATA_PATH", { type := .string, default := .s "./data/names.json" }),
   ("LANGUAGES_DATA_PATH", { type := .string, default := .s "./data/languages.json" }),
   ("DICT_DATA_PATH", { type := .string, default := .s "./data/dict.json" }),
   ("COUNTRIES_DATA_PATH", { type := .string, default := .s "./data/countries.json" })]

/-- A JS object that may have been passed to `Object.freeze`: named
entries plus the frozen flag.  Property assignment on a frozen object is
a silent no-op (non-strict mode). -/
structure FrozenObj where
  entries : List (String × CValue)
  frozen : Bool
  deriving DecidableEq, Repr

instance : Inhabited FrozenObj := ⟨⟨[], false⟩⟩

/-- Replace the value of key `k` (JS property assignment on the entry
list). -/
def setEntry (k : String) (v : CValue) : List (String × CValue) → List (String × CValue)
  | [] => []
  | (k', v') :: rest => if k' = k then (k, v) :: rest else (k', v') :: setEntry k v rest

/-- The `obj[k] = v`: rejected (as a no-op) when the object is frozen. -/
def objSet (o : FrozenObj) (k : String) (v : CValue) : FrozenObj :=
  if o.frozen then o else { o with entries := setEntry k v o.entries }

/-- The `obj[k]` (`none` = `undefined`). -/
def objGet (o : FrozenObj) (k : String) : Option CValue :=
  o.entries.lookup k

/-- The filesystem facts `loadConfig` consults: `fs.existsSync` on a
resolved path, and whether `fs.mkdirSync` on the log directory succeeds. -/
structure FsModel where
  pathExists : String → Bool
  mkdirOk : Bool

/-- The five `*_DATA_PATH` keys checked for existence. -/
def dataPaths : List String :=
  ["SITES_DATA_PATH", "NAMES_DATA_PATH", "LANGUAGES_DATA_PATH",
   "DICT_DATA_PATH", "COUNTRIES_DATA_PATH"]

/-- The string carried by a path-valued configuration entry
(`path.resolve` is modelled as the identity on the stored path). -/
def pathString : Option CValue → String
  | some (.s v) => v
  | _ => ""

/-- Per-field pass of `loadConfig`: accumulated errors and the config
entry list, in schema order. -/
def validateFields (env : String → Option String) :
    List (String × FieldSchema) → List String × List (String × CValue)
  | [] => ([], [])
  | (key, schema) :: rest =>
    let result := validateValue key (env key) schema
    ((if result.valid then [] else result.errors) ++ (validateFields env rest).1,
     (key, result.value) :: (validateFields env rest).2)

/-- The `loadConfig()` from `modules/config.js`.  `env` is `process.env`
after the optional dotenv load, `isProduction` is
`process.env.NODE_ENV === 'production'`, and `genSecret` is the value
`crypto.randomBytes(32).toString('hex')` would produce.  A thrown
`ConfigValidationError` becomes `Except.error` with its `errors` list;
on success the frozen snapshot is returned. -/
def loadConfig (env : String → Option String) (fs : FsModel) (isProduction : Bool)
    (genSecret : String) : Except (List String) FrozenObj :=
  let errors := (validateFields env (CONFIG_SCHEMA isProduction)).1
  let entries := (validateFields env (CONFIG_SCHEMA isProduction)).2
  if errors ≠ [] then
    .error errors
  else
    let missingFiles := (dataPaths.filter fun pk =>
      ¬ fs.pathExists (pathString (entries.lookup pk))).map fun pk =>
        pk ++ ": " ++ pathString (entries.lookup pk)
    if missingFiles ≠ [] then
      .error ("Required data files not found:" :: missingFiles)
    else if (entries.lookup "ENABLE_FILE_LOGGING" = some (.b true)) ∧
        ¬ fs.pathExists (pathString (entries.lookup "LOG_DIR")) ∧ ¬ fs.mkdirOk then
      .error ["Cannot create log directory: " ++ pathString (entries.lookup "LOG_DIR")]
    else if isProduction ∧ ¬ (entries.lookup "SESSION_SECRET").any cvTruthy then
      .error ["SESSION_SECRET is required in production",
              "Generate one with: node -e \"console.log(require('crypto').randomBytes(32).toString('hex'))\""]
    else
      let entries :=
        if ¬ (entries.lookup "SESSION_SECRET").any cvTruthy then
          setEntry "SESSION_SECRET" (.s genSecret) entries
        else entries
      .ok { entries := entries, frozen := true }

/-- The `get(key)` (after successful initialization). -/
def get (o : FrozenObj) (key : String) : Option CValue :=
  objGet o key

/-- The `getAll()` (after successful initialization). -/
def getAll (o : FrozenObj) : FrozenObj := o

/-- The `maskSecret(secret)`: `'***'` for short or empty secrets, otherwise
the first ten characters followed by one `'*'` per remaining character. -/
def maskSecret (secret : String) : String :=
  if secret = "" ∨ secret.toList.length ≤ 10 then "***"
  else String.mk (secret.toList.take 10 ++ List.replicate (secret.toList.length - 10) '*')

/-- The `maskUrl(url)`: empty for empty input, the credential-hiding rewrite
for URLs with embedded credentials, the input itself otherwise, and
`'***'` when the URL constructor throws. -/
def maskUrl (url : String) : String :=
  if url = "" then ""
  else
    match URLModel.parseUrl url with
    | none => "***"
    | some parsed =>
      if parsed.username ≠ "" ∨ parsed.password ≠ "" then
        parsed.protocol ++ "//***.***@" ++ parsed.host ++ parsed.pathname
      else url

/-- The per-entry masking step of `getSanitized`: `GOOGLE_API_KEY`
through `maskSecret`, `SESSION_SECRET` to the fixed placeholder,
`HTTP_PROXY` through `maskUrl`; falsy values and other keys unchanged. -/
def maskEntry (k : String) (v : CValue) : CValue :=
  if k = "GOOGLE_API_KEY" then
    match v with
    | .s s => if s ≠ "" then .s (maskSecret s) else v
    | _ => v
  else if k = "SESSION_SECRET" then
    match v with
    | .s s => if s ≠ "" then .s "***HIDDEN***" else v
    | _ => v
  else if k = "HTTP_PROXY" then
    match v with
    | .s s => if s ≠ "" then .s (maskUrl s) else v
    | _ => v
  else v

/-- The `getSanitized()`: a shallow copy of the snapshot with the three
sensitive fields masked. -/
def getSanitized (entries : List (String × CValue)) : List (String × CValue) :=
  entries.map fun e => (e.1, maskEntry e.1 e.2)

end Config

/-! ## Claims about the error taxonomy (C1, C9) -/

/-- A concrete unclassified failure used to exercise `createErrorResponse`
outside development mode with `VERBOSE` enabled. -/
def errVerbose : ErrorHandler.JSError :=
  { name := "TypeError", message := "boom", stack := "at index.js:10" }

/-- C1 fails as stated: for an unclassified failure in production mode
with `VERBOSE = true`, `createErrorResponse` discloses the real message
and the stack instead of the fixed generic record. -/
theorem c1_counterexample :
    (ErrorHandler.createErrorResponse false true errVerbose).message = "boom" ∧
    (ErrorHandler.createErrorResponse false true errVerbose).message ≠ "An error occurred" ∧
    (ErrorHandler.createErrorResponse false true errVerbose).stack = some "at index.js:10" ∧
    (ErrorHandler.createErrorResponse false true errVerbose).details ≠ none := by decide

/-- C1 (amended): for every unclassified failure, in production mode with
`VERBOSE` disabled the response is the fixed generic `internal_error`
record with no stack and no details; whenever the mode is non-production
or `VERBOSE` is enabled, the response carries the failure's real message,
its stack, and its name/code subtype details. -/
theorem c1_amended (err : ErrorHandler.JSError) (h : ErrorHandler.Unclassified err) :
    (ErrorHandler.createErrorResponse false false err =
      { error := true
        message := "An error occurred"
        type := "internal_error"
        statusCode := some (if err.statusCode ≠ 0 then err.statusCode else 500)
        stack := none
        details := none }) ∧
    (∀ isDevelopment verbose : Bool, isDevelopment = true ∨ verbose = true →
      ErrorHandler.createErrorResponse isDevelopment verbose err =
        { error := true
          message := err.message
          type := "internal_error"
          statusCode := some (if err.statusCode ≠ 0 then err.statusCode else 500)
          stack := some err.stack
          details := some (.nameCode err.name err.code) }) := by
  obtain ⟨h1, h2, h3, h4, h5, h6⟩ := h
  constructor
  · simp [ErrorHandler.createErrorResponse, h1, h2, h3, h4, h5, h6]
  · intro isDevelopment verbose hd
    simp [ErrorHandler.createErrorResponse, h1, h2, h3, h4, h5, h6]
    rcases hd with hd | hd <;> simp [hd]

/-- C1 witness: the amended theorem applied to the concrete unclassified
failure `errVerbose`. -/
theorem c1_witness :
    ErrorHandler.createErrorResponse false false errVerbose =
      { error := true, message := "An error occurred", type := "internal_error",
        statusCode := some 500, stack := none, details := none } :=
  (c1_amended errVerbose (by refine ⟨?_, ?_, ?_, ?_, ?_, ?_⟩ <;> decide)).1

/-- C9: for a failure named `ValidationError`, `createErrorResponse`
returns the `validation_error` record with status 400 and the failure's
`userMessage` (falling back to `message`), with no stack and no details,
in every combination of mode and `VERBOSE`. -/
theorem c9_validation_error_response (isDevelopment verbose : Bool)
    (err : ErrorHandler.JSError) (h : err.name = "ValidationError") :
    ErrorHandler.createErrorResponse isDevelopment verbose err =
      { error := true
        message := if err.userMessage ≠ "" then err.userMessage else err.message
        type := "validation_error"
        statusCode := some 400
        stack := none
        details := none } := by
  simp [ErrorHandler.createErrorResponse, h]

/-- C9 witness: the theorem applied to a concrete `ValidationError`
object in production mode. -/
theorem c9_witness :
    ErrorHandler.createErrorResponse false false
        { name := "ValidationError", message := "bad", userMessage := "Invalid url: bad" } =
      { error := true, message := "Invalid url: bad", type := "validation_error",
        statusCode := some 400, stack := none, details := none } := by
  have := c9_validation_error_response false false
    { name := "ValidationError", message := "bad", userMessage := "Invalid url: bad" } rfl
  rw [this]; decide

/-! ## Claims about the field validators (C2, C10) -/

/-- C2: `validateUrl` rejects `javascript:alert(1)` in both execution
modes, rejects `http://127.0.0.1` in production mode, and accepts
`http://127.0.0.1` (returning the trimmed URL) outside production. -/
theorem c2_url_mode_gating :
    Validation.validateUrl true (.vstr "javascript:alert(1)") =
      .error (Validation.mkVError "url" "Invalid URL format") ∧
    Validation.validateUrl false (.vstr "javascript:alert(1)") =
      .error (Validation.mkVError "url" "Invalid URL format") ∧
    Validation.validateUrl true (.vstr "http://127.0.0.1") =
      .error (Validation.mkVError "url" "Private/internal URLs are not allowed") ∧
    Validation.validateUrl false (.vstr "http://127.0.0.1") = .ok "http://127.0.0.1" := by
  decide

/-- C10: `validateMode` maps every falsy input to the default `fast`;
a non-empty string input is trimmed and lower-cased, then accepted
exactly when the result is one of `fast`, `slow`, `special`, and every
other string input yields a validation failure. -/
theorem c10_mode_default :
    (Validation.validateMode .vnull = .ok "fast" ∧
     Validation.validateMode .vundef = .ok "fast" ∧
     Validation.validateMode (.vstr "") = .ok "fast" ∧
     Validation.validateMode (.vbool false) = .ok "fast" ∧
     Validation.validateMode (.vnum 0) = .ok "fast") ∧
    (∀ s : String, s ≠ "" →
      (jsToLower (jsTrim s) = "fast" ∨ jsToLower (jsTrim s) = "slow" ∨
          jsToLower (jsTrim s) = "special" →
        Validation.validateMode (.vstr s) = .ok (jsToLower (jsTrim s))) ∧
      (¬ (jsToLower (jsTrim s) = "fast" ∨ jsToLower (jsTrim s) = "slow" ∨
          jsToLower (jsTrim s) = "special") →
        Validation.validateMode (.vstr s) =
          .error (Validation.mkVError "mode" "Mode must be one of: fast, slow, special"))) := by
  refine ⟨by decide, ?_⟩
  intro s hs
  constructor
  · intro hmem
    simp [Validation.validateMode, jsTruthy, hs, hmem]
  · intro hmem
    simp only [not_or] at hmem
    simp [Validation.validateMode, jsTruthy, hs, hmem.1, hmem.2.1, hmem.2.2]

/-- C10 witness: the theorem applied to `' FAST '` (case and whitespace
insensitivity) and to `'invalid'` (rejection). -/
theorem c10_witness :
    Validation.validateMode (.vstr " FAST ") = .ok "fast" ∧
    Validation.validateMode (.vstr "invalid") =
      .error (Validation.mkVError "mode" "Mode must be one of: fast, slow, special") := by
  constructor
  · have := (c10_mode_default.2 " FAST " (by decide)).1 (by decide)
    rw [this]; decide
  · exact (c10_mode_default.2 "invalid" (by decide)).2 (by decide)

/-! ## C7: sanitization is total and removes the escaped characters -/

/-- Inversion for a global one-character replacement: a character of the
output is a character of the replacement string or of the input. -/
theorem mem_replCh {c d : Char} {rep l : List Char} (h : c ∈ Validation.replCh d rep l) :
    c ∈ rep ∨ c ∈ l := by
  induction l with
  | nil => simp [Validation.replCh] at h
  | cons x xs ih =>
    simp only [Validation.replCh] at h
    by_cases hx : x = d
    · simp only [hx, if_pos rfl] at h
      rcases List.mem_append.1 h with h | h
      · exact .inl h
      · rcases ih h with h | h
        · exact .inl h
        · exact .inr (List.mem_cons_of_mem _ h)
    · simp only [if_neg hx] at h
      rcases List.mem_cons.1 h with h | h
      · exact .inr (by simp [h])
      · rcases ih h with h | h
        · exact .inl h
        · exact .inr (List.mem_cons_of_mem _ h)

/-- Replacing `c` by a string that does not contain `c` removes every
occurrence of `c`. -/
theorem not_mem_replCh_self {c : Char} {rep l : List Char} (h : c ∉ rep) :
    c ∉ Validation.replCh c rep l := by
  induction l with
  | nil => simp [Validation.replCh]
  | cons x xs ih =>
    simp only [Validation.replCh]
    by_cases hx : x = c
    · simp only [hx, if_pos rfl]
      intro hc
      rcases List.mem_append.1 hc with hc | hc
      · exact h hc
      · exact ih hc
    · simp only [if_neg hx]
      intro hc
      rcases List.mem_cons.1 hc with hc | hc
      · exact hx hc.symm
      · exact ih hc

/-- A replacement of a different character preserves the absence of `c`
when the replacement string does not contain `c`. -/
theorem not_mem_replCh {c d : Char} {rep l : List Char} (h1 : c ∉ rep) (h2 : c ∉ l) :
    c ∉ Validation.replCh d rep l :=
  fun hc => (mem_replCh hc).elim h1 h2

/-- C7: `sanitizeText` returns the empty string on every absent or
non-string input; on string input the result never contains a literal
`<`, `>`, `"`, `'` or `/` and never contains a control character; in
particular the script-tag example is fully entity-encoded. -/
theorem c7_sanitize_total :
    (Validation.sanitizeText .vnull = "" ∧
     Validation.sanitizeText .vundef = "" ∧
     (∀ n : Int, Validation.sanitizeText (.vnum n) = "") ∧
     (∀ b : Bool, Validation.sanitizeText (.vbool b) = "")) ∧
    (∀ s : String,
      '<' ∉ (Validation.sanitizeText (.vstr s)).toList ∧
      '>' ∉ (Validation.sanitizeText (.vstr s)).toList ∧
      '"' ∉ (Validation.sanitizeText (.vstr s)).toList ∧
      '\'' ∉ (Validation.sanitizeText (.vstr s)).toList ∧
      '/' ∉ (Validation.sanitizeText (.vstr s)).toList ∧
      (∀ c ∈ (Validation.sanitizeText (.vstr s)).toList, Validation.isCtlChar c = false)) ∧
    Validation.sanitizeText (.vstr "<script>alert(\"x\")</script>") =
      "&lt;script&gt;alert(&quot;x&quot;)&lt;&#x2F;script&gt;" := by
  refine ⟨⟨rfl, rfl, fun n => rfl, fun b => rfl⟩, ?_, by decide⟩
  intro s
  by_cases hs : s = ""
  · subst hs
    exact ⟨by decide, by decide, by decide, by decide, by decide, by decide⟩
  · have hred : (Validation.sanitizeText (.vstr s)).toList =
        (Validation.replCh '/' "&#x2F;".toList <|
         Validation.replCh '\'' "&#x27;".toList <|
         Validation.replCh '"' "&quot;".toList <|
         Validation.replCh '>' "&gt;".toList <|
         Validation.replCh '<' "&lt;".toList <|
         Validation.replCh '&' "&amp;".toList
           (s.toList.filter (fun c => !Validation.isCtlChar c))) := by
      simp [Validation.sanitizeText, hs]
    rw [hred]
    refine ⟨?_, ?_, ?_, ?_, ?_, ?_⟩
    · exact not_mem_replCh (by decide) (not_mem_replCh (by decide)
        (not_mem_replCh (by decide) (not_mem_replCh (by decide)
          (not_mem_replCh_self (by decide)))))
    · exact not_mem_replCh (by decide) (not_mem_replCh (by decide)
        (not_mem_replCh (by decide) (not_mem_replCh_self (by decide))))
    · exact not_mem_replCh (by decide) (not_mem_replCh (by decide)
        (not_mem_replCh_self (by decide)))
    · exact not_mem_replCh (by decide) (not_mem_replCh_self (by decide))
    · exact not_mem_replCh_self (by decide)
    · intro c hc
      have base : ∀ x ∈ s.toList.filter (fun c => !Validation.isCtlChar c),
          Validation.isCtlChar x = false := by
        intro x hx
        have := List.of_mem_filter hx
        simpa using this
      have step : ∀ (d : Char) (rep l : List Char),
          (∀ x ∈ rep, Validation.isCtlChar x = false) →
          (∀ x ∈ l, Validation.isCtlChar x = false) →
          ∀ x ∈ Validation.replCh d rep l, Validation.isCtlChar x = false :=
        fun d rep l hr hl x hx => (mem_replCh hx).elim (hr x) (hl x)
      revert c hc
      apply step _ _ _ (by decide)
      apply step _ _ _ (by decide)
      apply step _ _ _ (by decide)
      apply step _ _ _ (by decide)
      apply step _ _ _ (by decide)
      apply step _ _ _ (by decide)
      exact base

/-! ## C5: batch username validation -/

/-- The element loop reports the first failing element with its 1-based
position, counting from the loop's starting index. -/
theorem validateEach_append_error (pre : List String) (i : Nat) (u : String)
    (post : List String) (e : Validation.VError)
    (hpre : ∀ v ∈ pre, ∃ w, Validation.validateUsername (.vstr v) = .ok w)
    (hu : Validation.validateUsername (.vstr u) = .error e) :
    Validation.validateEach i (pre ++ u :: post) =
      .error (Validation.mkVError "usernames"
        ("Username #" ++ toString (i + pre.length + 1) ++ " is invalid: " ++ e.userMessage)) := by
  induction pre generalizing i with
  | nil =>
    simp only [List.nil_append, Validation.validateEach, hu, List.length_nil]
  | cons v pre ih =>
    obtain ⟨w, hw⟩ := hpre v (List.mem_cons_self v pre)
    have hrest : ∀ x ∈ pre, ∃ w, Validation.validateUsername (.vstr x) = .ok w :=
      fun x hx => hpre x (List.mem_cons_of_mem _ hx)
    have harith : i + 1 + pre.length + 1 = i + (pre.length + 1) + 1 := by omega
    have hrec := ih (i + 1) hrest
    rw [harith] at hrec
    simp only [List.cons_append, Validation.validateEach, hw, List.append_eq, hrec,
      List.length_cons]

/-- C5: `validateUsernames` maps `'john,jane,bob'` to exactly
`['john','jane','bob']`; any input whose split/trimmed/filtered element
list exceeds 50 elements fails with the fixed maximum-count failure,
whatever the elements are; and when the element list is within bounds,
the failure of the first invalid element is propagated with its 1-based
position. -/
theorem c5_batch_validation :
    Validation.validateUsernames (.vstr "john,jane,bob") = .ok ["john", "jane", "bob"] ∧
    (∀ s : String, (Validation.splitTrimFilter s).length > 50 →
      Validation.validateUsernames (.vstr s) =
        .error (Validation.mkVError "usernames" "Maximum 50 usernames allowed per request")) ∧
    (∀ (s : String) (pre : List String) (u : String) (post : List String)
        (e : Validation.VError),
      Validation.splitTrimFilter s = pre ++ u :: post →
      pre.length + 1 + post.length ≤ 50 →
      (∀ v ∈ pre, ∃ w, Validation.validateUsername (.vstr v) = .ok w) →
      Validation.validateUsername (.vstr u) = .error e →
      Validation.validateUsernames (.vstr s) =
        .error (Validation.mkVError "usernames"
          ("Username #" ++ toString (pre.length + 1) ++ " is invalid: " ++ e.userMessage))) := by
  refine ⟨by decide, ?_, ?_⟩
  · intro s hlen
    have hs : s ≠ "" := by
      intro h
      subst h
      revert hlen
      decide
    have h0 : ¬ (Validation.splitTrimFilter s).length = 0 := by omega
    simp [Validation.validateUsernames, jsTruthy, hs, h0, hlen]
  · intro s pre u post e hsplit hlen hpre hu
    have hs : s ≠ "" := by
      intro h
      subst h
      have : Validation.splitTrimFilter "" = [] := by decide
      rw [this] at hsplit
      exact (List.cons_ne_nil u post) (List.append_eq_nil.mp hsplit.symm).2
    have h0 : ¬ (pre ++ u :: post).length = 0 := by simp
    have hle : ¬ 50 < pre.length + (post.length + 1) := by omega
    have hrec := validateEach_append_error pre 0 u post e hpre hu
    simp only [Nat.zero_add] at hrec
    simp [Validation.validateUsernames, jsTruthy, hs, hsplit, h0, hle, hrec]

/-- The 51-element comma-separated input used to exercise the maximum
element count. -/
def manyUsers : String := String.intercalate "," (List.replicate 51 "a")

set_option maxRecDepth 10000 in
/-- C5 witness: the theorem applied to the 51-element input and to a
batch whose second element is invalid. -/
theorem c5_witness :
    Validation.validateUsernames (.vstr manyUsers) =
      .error (Validation.mkVError "usernames" "Maximum 50 usernames allowed per request") ∧
    Validation.validateUsernames (.vstr "john,!x,bob") =
      .error (Validation.mkVError "usernames"
        ("Username #" ++ toString (([ "john" ] : List String).length + 1) ++ " is invalid: " ++
          (Validation.mkVError "username"
            "Username can only contain letters, numbers, dots, underscores, and hyphens").userMessage)) := by
  constructor
  · exact c5_batch_validation.2.1 manyUsers (by decide)
  · refine c5_batch_validation.2.2 "john,!x,bob" ["john"] "!x" ["bob"]
      (Validation.mkVError "username"
        "Username can only contain letters, numbers, dots, underscores, and hyphens")
      (by decide) (by decide) ?_ (by decide)
    intro v hv
    rw [List.mem_singleton] at hv
    subst hv
    exact ⟨"john", by decide⟩

/-! ## C6: rule evaluation order within a rule-set -/

/-- A rule-set exercising two string constraints at once: a minimum
length and a lower-case-only pattern. -/
def c6Schema : Config.FieldSchema :=
  { type := .string, default := .s "",
    minLength := some 5,
    pattern := some fun s => s.toList.all fun c => 'a' ≤ c ∧ c ≤ 'z' }

/-- C6 fails as stated: the raw value `'A'` violates both the minimum
length and the pattern of its rule-set, and `validateValue` reports both
failures rather than exactly one. -/
theorem c6_counterexample :
    (Config.validateValue "FIELD" (some "A") c6Schema).errors.length = 2 ∧
    (Config.validateValue "FIELD" (some "A") c6Schema).errors =
      ["FIELD must be at least 5 characters, got: 1", "FIELD has invalid format"] ∧
    (Config.validateValue "FIELD" (some "A") c6Schema).valid = false :=
  ⟨rfl, rfl, rfl⟩

/-- Reduction of `validateValue` on a non-empty raw value under a
string-typed rule-set: the error list is the concatenation of the
minimum-length, pattern and enum failures, in that declared order. -/
theorem validateValue_string (key raw : String) (sch : Config.FieldSchema)
    (ht : sch.type = .string) (hraw : raw ≠ "") :
    Config.validateValue key (some raw) sch =
      { valid := ((match sch.minLength with
          | some ml => if raw.toList.length < ml then
              [key ++ " must be at least " ++ toString ml ++ " characters, got: " ++
                toString raw.toList.length] else []
          | none => []) ++
         (match sch.pattern with
          | some test => if ¬ test raw then [key ++ " has invalid format"] else []
          | none => []) ++
         (match sch.enum with
          | some allowed => if ¬ allowed.contains raw then
              [key ++ " must be one of: " ++ String.intercalate ", " allowed ++
                ", got: " ++ raw] else []
          | none => [])).isEmpty,
        errors := (match sch.minLength with
          | some ml => if raw.toList.length < ml then
              [key ++ " must be at least " ++ toString ml ++ " characters, got: " ++
                toString raw.toList.length] else []
          | none => []) ++
         (match sch.pattern with
          | some test => if ¬ test raw then [key ++ " has invalid format"] else []
          | none => []) ++
         (match sch.enum with
          | some allowed => if ¬ allowed.contains raw then
              [key ++ " must be one of: " ++ String.intercalate ", " allowed ++
                ", got: " ++ raw] else []
          | none => []),
        value := .s raw } := by
  simp [Config.validateValue, hraw, ht]

/-- C6 (amended): within a string rule-set the constraints are evaluated
in the declared order (length, then pattern, then enum) and the first
reported failure is that of the first violated constraint, but
`validateValue` aggregates every violated constraint for the field
instead of stopping at exactly one; `validateUsername`, in contrast, does
short-circuit: a value failing the pattern check reports only the
pattern failure, whatever the later path-traversal and blacklist checks
would have said. -/
theorem c6_amended :
    (∀ (key raw : String) (sch : Config.FieldSchema), sch.type = .string → raw ≠ "" →
      (∀ ml, sch.minLength = some ml → raw.toList.length < ml →
        (Config.validateValue key (some raw) sch).errors.head? =
          some (key ++ " must be at least " ++ toString ml ++ " characters, got: " ++
            toString raw.toList.length)) ∧
      ((∀ ml, sch.minLength = some ml → ¬ raw.toList.length < ml) →
        ∀ test, sch.pattern = some test → test raw = false →
        (Config.validateValue key (some raw) sch).errors.head? =
          some (key ++ " has invalid format")) ∧
      ((∀ ml, sch.minLength = some ml → ¬ raw.toList.length < ml) →
        (∀ test, sch.pattern = some test → test raw = true) →
        ∀ allowed, sch.enum = some allowed → allowed.contains raw = false →
        (Config.validateValue key (some raw) sch).errors.head? =
          some (key ++ " must be one of: " ++ String.intercalate ", " allowed ++
            ", got: " ++ raw)) ∧
      ((∀ ml, sch.minLength = some ml → ¬ raw.toList.length < ml) →
        (∀ test, sch.pattern = some test → test raw = true) →
        (∀ allowed, sch.enum = some allowed → allowed.contains raw = true) →
        (Config.validateValue key (some raw) sch).errors = [] ∧
        (Config.validateValue key (some raw) sch).valid = true)) ∧
    (∀ s : String, jsTrim s = s → 1 ≤ s.toList.length → s.toList.length ≤ 100 →
      Validation.usernamePatternTest s = false →
      Validation.validateUsername (.vstr s) =
        .error (Validation.mkVError "username"
          "Username can only contain letters, numbers, dots, underscores, and hyphens")) := by
  constructor
  · intro key raw sch ht hraw
    rw [validateValue_string key raw sch ht hraw]
    refine ⟨?_, ?_, ?_, ?_⟩
    · intro ml hml hlt
      simp only [hml]
      rw [if_pos hlt]
      simp
    · intro hmin test hpat hfalse
      simp only [hpat]
      rw [if_pos (by simp [hfalse])]
      rcases hm : sch.minLength with _ | ml
      · simp
      · simp only [hm]
        rw [if_neg (hmin ml hm)]
        simp
    · intro hmin hpat allowed henum hfalse
      have hnm : raw ∉ allowed := by simpa using hfalse
      simp only [henum]
      rw [if_pos (by simp [hnm])]
      rcases hm : sch.minLength with _ | ml <;> rcases hp : sch.pattern with _ | test
      · simp
      · simp only [hp]
        rw [if_neg (by simp [hpat test hp])]
        simp
      · simp only [hm]
        rw [if_neg (hmin ml hm)]
        simp
      · simp only [hm, hp]
        rw [if_neg (hmin ml hm), if_neg (by simp [hpat test hp])]
        simp
    · intro hmin hpat henum
      rcases hm : sch.minLength with _ | ml <;>
        rcases hp : sch.pattern with _ | test <;>
          rcases he : sch.enum with _ | allowed <;>
            simp_all
  · intro s htrim h1 h100 hpat
    have hs : s ≠ "" := by
      intro h
      subst h
      simp at h1
    have e : s.length = s.toList.length := rfl
    have hlt : ¬ s.length = 0 := by omega
    have hgt : ¬ 100 < s.length := by omega
    simp [Validation.validateUsername, jsTruthy, hs, htrim, hlt, hgt, hpat]

/-- C6 witness: the amended theorem applied to the two-violation value
`'A'` (first reported failure is the length failure) and to the username
`'..SELECT!'`, which violates the pattern, the path-traversal rule and
the blacklist at once yet reports only the pattern failure. -/
theorem c6_witness :
    (Config.validateValue "FIELD" (some "A") c6Schema).errors.head? =
      some ("FIELD must be at least " ++ toString 5 ++ " characters, got: " ++
        toString ("A".toList.length)) ∧
    Validation.validateUsername (.vstr "..SELECT!") =
      .error (Validation.mkVError "username"
        "Username can only contain letters, numbers, dots, underscores, and hyphens") := by
  constructor
  · exact (c6_amended.1 "FIELD" "A" c6Schema rfl (by decide)).1 5 rfl (by decide)
  · exact c6_amended.2 "..SELECT!" (by decide) (by decide) (by decide) (by decide)

/-! ## C8: idempotence of the secret projection -/

/-- The `(s ++ t).toList` splits into the two character lists. -/
theorem toList_append (s t : String) : (s ++ t).toList = s.toList ++ t.toList := by
  cases s
  cases t
  rfl

/-- A string is empty exactly when its character list is. -/
theorem eq_empty_iff_toList (s : String) : s = "" ↔ s.toList = [] := by
  cases s with
  | mk data =>
    constructor
    · intro h
      rw [h]
      decide
    · intro h
      have hd : data = [] := h
      subst hd
      rfl

namespace URLModel

theorem splitAtFirst_eq_some {c : Char} {l a b : List Char}
    (h : splitAtFirst c l = some (a, b)) : l = a ++ c :: b ∧ c ∉ a := by
  induction l generalizing a b with
  | nil => simp [splitAtFirst] at h
  | cons x xs ih =>
    simp only [splitAtFirst] at h
    by_cases hx : x = c
    · rw [if_pos hx] at h
      have h' := Option.some.inj h
      have ha : a = [] := (congrArg Prod.fst h').symm
      have hb : b = xs := (congrArg Prod.snd h').symm
      subst ha hb
      exact ⟨by rw [hx]; rfl, by simp⟩
    · rw [if_neg hx] at h
      cases hsx : splitAtFirst c xs with
      | none => rw [hsx] at h; cases h
      | some p =>
        obtain ⟨a', b'⟩ := p
        rw [hsx] at h
        have h' := Option.some.inj h
        have ha : a = x :: a' := (congrArg Prod.fst h').symm
        have hb : b = b' := (congrArg Prod.snd h').symm
        subst ha hb
        obtain ⟨hxs, hna⟩ := ih hsx
        constructor
        · rw [hxs]
          rfl
        · intro hc
          rcases List.mem_cons.1 hc with hc | hc
          · exact hx hc.symm
          · exact hna hc

theorem splitAtFirst_append {c : Char} {a : List Char} (b : List Char) (h : c ∉ a) :
    splitAtFirst c (a ++ c :: b) = some (a, b) := by
  induction a with
  | nil => simp [splitAtFirst]
  | cons x xs ih =>
    have hx : ¬ x = c := fun e => h (e ▸ List.mem_cons_self x xs)
    have hxs : c ∉ xs := fun hc => h (List.mem_cons_of_mem _ hc)
    simp only [List.cons_append, splitAtFirst, if_neg hx, List.append_eq, ih hxs]

theorem splitAtFirst_of_not_mem {c : Char} {l : List Char} (h : c ∉ l) :
    splitAtFirst c l = none := by
  induction l with
  | nil => rfl
  | cons x xs ih =>
    have hx : ¬ x = c := fun e => h (e ▸ List.mem_cons_self x xs)
    have hxs : c ∉ xs := fun hc => h (List.mem_cons_of_mem _ hc)
    simp only [splitAtFirst, if_neg hx, ih hxs]

theorem splitAtLast_eq_some {c : Char} {l a b : List Char}
    (h : splitAtLast c l = some (a, b)) : l = a ++ c :: b ∧ c ∉ b := by
  unfold splitAtLast at h
  cases hsf : splitAtFirst c l.reverse with
  | none => rw [hsf] at h; cases h
  | some p =>
    obtain ⟨x, y⟩ := p
    rw [hsf] at h
    have h' : y.reverse = a ∧ x.reverse = b := by
      have := Option.some.inj h
      exact ⟨congrArg Prod.fst this, congrArg Prod.snd this⟩
    obtain ⟨ha, hb⟩ := h'
    obtain ⟨hrev, hnx⟩ := splitAtFirst_eq_some hsf
    subst ha hb
    constructor
    · have : l.reverse.reverse = (x ++ c :: y).reverse := by rw [hrev]
      rw [List.reverse_reverse] at this
      rw [this]
      simp
    · simpa using hnx

theorem splitAtLast_append {c : Char} (a : List Char) {b : List Char} (h : c ∉ b) :
    splitAtLast c (a ++ c :: b) = some (a, b) := by
  unfold splitAtLast
  have hrev : (a ++ c :: b).reverse = b.reverse ++ c :: a.reverse := by
    simp [List.reverse_append]
  rw [hrev, splitAtFirst_append _ (by simpa using h)]
  simp

theorem splitAtLast_of_not_mem {c : Char} {l : List Char} (h : c ∉ l) :
    splitAtLast c l = none := by
  unfold splitAtLast
  rw [splitAtFirst_of_not_mem (by simpa using h)]

theorem takeWhile_append_all {p : Char → Bool} {a : List Char} (b : List Char)
    (h : ∀ x ∈ a, p x = true) : (a ++ b).takeWhile p = a ++ b.takeWhile p := by
  induction a with
  | nil => simp
  | cons x xs ih =>
    have hx := h x (List.mem_cons_self x xs)
    have ihr := ih (fun y hy => h y (List.mem_cons_of_mem _ hy))
    simp [List.takeWhile_cons, hx, ihr]

theorem dropWhile_append_all {p : Char → Bool} {a : List Char} (b : List Char)
    (h : ∀ x ∈ a, p x = true) : (a ++ b).dropWhile p = b.dropWhile p := by
  induction a with
  | nil => simp
  | cons x xs ih =>
    have hx := h x (List.mem_cons_self x xs)
    simp only [List.cons_append, List.dropWhile_cons, hx]
    exact ih (fun y hy => h y (List.mem_cons_of_mem _ hy))

theorem takeWhile_all {p : Char → Bool} {l : List Char}
    (h : ∀ x ∈ l, p x = true) : l.takeWhile p = l := by
  induction l with
  | nil => rfl
  | cons x xs ih =>
    have hx := h x (List.mem_cons_self x xs)
    have ihr := ih (fun y hy => h y (List.mem_cons_of_mem _ hy))
    simp [List.takeWhile_cons, hx, ihr]

end URLModel

namespace URLModel

theorem splitAtFirst_isSome_of_mem {c : Char} {l : List Char} (h : c ∈ l) :
    ∃ pr, splitAtFirst c l = some pr := by
  induction l with
  | nil => cases h
  | cons x xs ih =>
    by_cases hx : x = c
    · exact ⟨([], xs), by simp [splitAtFirst, hx]⟩
    · rcases List.mem_cons.1 h with h' | h'
      · exact absurd h'.symm hx
      · obtain ⟨⟨a, b⟩, hpr⟩ := ih h'
        exact ⟨(x :: a, b), by simp [splitAtFirst, hx, hpr]⟩

/-- The host produced by `splitAuthority` contains no `@` and all of its
characters come from the authority. -/
theorem splitAuthority_props (a : List Char) :
    '@' ∉ (splitAuthority a).2 ∧ ∀ ch ∈ (splitAuthority a).2, ch ∈ a := by
  unfold splitAuthority
  cases hsl : splitAtLast '@' a with
  | none =>
    have hnm : '@' ∉ a := by
      intro hmem
      have hmem' : '@' ∈ a.reverse := by simpa using hmem
      obtain ⟨pr, hpr⟩ := splitAtFirst_isSome_of_mem hmem'
      unfold splitAtLast at hsl
      rw [hpr] at hsl
      cases hsl
    exact ⟨hnm, fun ch hch => hch⟩
  | some pr =>
    obtain ⟨ui, host⟩ := pr
    obtain ⟨ha, hnm⟩ := splitAtLast_eq_some hsl
    refine ⟨hnm, fun ch hch => ?_⟩
    rw [ha]
    exact List.mem_append.2 (.inr (List.mem_cons_of_mem _ hch))

/-- The pathname always starts with `/` and contains no query or
fragment delimiter. -/
theorem pathnameFrom_props (after : List Char) :
    (∃ t, pathnameFrom after = '/' :: t) ∧
    ∀ ch ∈ pathnameFrom after, isPathEnd ch = false := by
  unfold pathnameFrom
  split
  · next xs =>
    constructor
    · exact ⟨List.takeWhile (fun c => !isPathEnd c) xs, rfl⟩
    · intro ch hch
      have := List.mem_takeWhile_imp hch
      simpa using this
  · exact ⟨⟨[], rfl⟩, by intro ch hch; simp at hch; subst hch; decide⟩

/-- Inversion of a successful `new URL(...)` parse: the shape facts about
the protocol, host and pathname that the masking rewrite relies on. -/
theorem parseUrl_inv {url : String} {p : URLParts} (h : parseUrl url = some p) :
    ∃ scheme : List Char,
      p.protocol = String.mk (scheme ++ [':']) ∧ ':' ∉ scheme ∧ scheme ≠ [] ∧
      p.host.toList ≠ [] ∧ (∀ ch ∈ p.host.toList, isAuthorityEnd ch = false) ∧
      '@' ∉ p.host.toList ∧
      (∃ t, p.pathname.toList = '/' :: t) ∧
      (∀ ch ∈ p.pathname.toList, isPathEnd ch = false) := by
  unfold parseUrl at h
  split at h
  · cases h
  · rename_i scheme rest hsf
    by_cases hsch : scheme = []
    · rw [if_pos hsch] at h; cases h
    · rw [if_neg hsch] at h
      split at h
      · next rest2 =>
        by_cases hh : (splitAuthority (rest2.takeWhile (fun c => !isAuthorityEnd c))).2 = []
        · rw [if_pos hh] at h; cases h
        · rw [if_neg hh] at h
          have hprec := Option.some.inj h
          obtain ⟨hauth_nm, hauth_mem⟩ :=
            splitAuthority_props (rest2.takeWhile (fun c => !isAuthorityEnd c))
          obtain ⟨hpath1, hpath2⟩ :=
            pathnameFrom_props (rest2.dropWhile (fun c => !isAuthorityEnd c))
          refine ⟨scheme, ?_, ?_, hsch, ?_, ?_, ?_, ?_, ?_⟩
          · rw [← hprec]
          · exact (splitAtFirst_eq_some hsf).2
          · rw [← hprec]; exact hh
          · rw [← hprec]
            intro ch hch
            have hch' := hauth_mem ch hch
            have := List.mem_takeWhile_imp hch'
            simpa using this
          · rw [← hprec]; exact hauth_nm
          · rw [← hprec]; exact hpath1
          · rw [← hprec]; exact hpath2
      · cases h

end URLModel


namespace URLModel

theorem parseUrl_render (scheme host t : List Char)
    (hs1 : ':' ∉ scheme) (hs2 : scheme ≠ [])
    (hh0 : host ≠ []) (hh1 : ∀ ch ∈ host, isAuthorityEnd ch = false) (hh2 : '@' ∉ host)
    (hp2 : ∀ ch ∈ ('/' :: t), isPathEnd ch = false) :
    parseUrl (String.mk (scheme ++ [':']) ++ "//***.***@" ++ String.mk host ++
        String.mk ('/' :: t)) =
      some ⟨String.mk (scheme ++ [':']), "***.***", "", String.mk host,
        String.mk ('/' :: t)⟩ := by
  have hlit : "//***.***@".toList = '/' :: '/' :: ("***.***".toList ++ ['@']) := rfl
  have hmk : ∀ l : List Char, (String.mk l).toList = l := fun _ => rfl
  have htl : (String.mk (scheme ++ [':']) ++ "//***.***@" ++ String.mk host ++
      String.mk ('/' :: t)).toList
      = scheme ++ ':' :: '/' :: '/' :: ("***.***".toList ++ '@' :: host ++ '/' :: t) := by
    rw [toList_append, toList_append, toList_append, hlit, hmk, hmk, hmk]
    simp [List.append_assoc]
  unfold parseUrl
  rw [htl, splitAtFirst_append ('/' :: '/' ::
    ("***.***".toList ++ '@' :: host ++ '/' :: t)) hs1]
  have hstep : (match some (scheme, '/' :: '/' :: ("***.***".toList ++ '@' :: host ++ '/' :: t)) with
    | none => none
    | some (scheme, rest) =>
      (if scheme = [] then none
      else
        match rest with
        | '/' :: '/' :: rest2 =>
          let authority := List.takeWhile (fun c => !URLModel.isAuthorityEnd c) rest2
          let after := List.dropWhile (fun c => !URLModel.isAuthorityEnd c) rest2
          let userinfo := (URLModel.splitAuthority authority).1
          let host := (URLModel.splitAuthority authority).2
          if host = [] then none
          else
            some
              { protocol := { data := scheme ++ [':'] }, username := { data := (URLModel.credsFrom userinfo).1 },
                password := { data := (URLModel.credsFrom userinfo).2 }, host := { data := host },
                pathname := { data := URLModel.pathnameFrom after } }
        | _ => none : Option URLParts)) =
      (if scheme = [] then none
      else
        let rest2 := "***.***".toList ++ '@' :: host ++ '/' :: t
        let authority := List.takeWhile (fun c => !URLModel.isAuthorityEnd c) rest2
        let after := List.dropWhile (fun c => !URLModel.isAuthorityEnd c) rest2
        let userinfo := (URLModel.splitAuthority authority).1
        let host := (URLModel.splitAuthority authority).2
        if host = [] then none
        else
          some
            { protocol := { data := scheme ++ [':'] }, username := { data := (URLModel.credsFrom userinfo).1 },
              password := { data := (URLModel.credsFrom userinfo).2 }, host := { data := host },
              pathname := { data := URLModel.pathnameFrom after } }) := rfl
  rw [hstep, if_neg hs2]
  have hA : ∀ x ∈ ("***.***".toList ++ '@' :: host), (!isAuthorityEnd x) = true := by
    intro x hx
    rcases List.mem_append.1 hx with hx | hx
    · fin_cases hx <;> decide
    · rcases List.mem_cons.1 hx with rfl | hx
      · decide
      · simpa using hh1 x hx
  have hassoc : ("***.***".toList ++ '@' :: host ++ '/' :: t)
      = ("***.***".toList ++ '@' :: host) ++ '/' :: t := by simp
  have htake : List.takeWhile (fun c => !isAuthorityEnd c)
      ("***.***".toList ++ '@' :: host ++ '/' :: t) = "***.***".toList ++ '@' :: host := by
    rw [hassoc, takeWhile_append_all _ hA]
    have h0 : List.takeWhile (fun c => !isAuthorityEnd c) ('/' :: t) = [] := rfl
    rw [h0, List.append_nil]
  have hdrop : List.dropWhile (fun c => !isAuthorityEnd c)
      ("***.***".toList ++ '@' :: host ++ '/' :: t) = '/' :: t := by
    rw [hassoc, dropWhile_append_all _ hA]
    rfl
  have hsa : splitAuthority ("***.***".toList ++ '@' :: host) =
      (some "***.***".toList, host) := by
    unfold splitAuthority
    rw [splitAtLast_append _ hh2]
  have hpath : pathnameFrom ('/' :: t) = '/' :: t := by
    show List.takeWhile (fun c => !isPathEnd c) ('/' :: t) = '/' :: t
    apply takeWhile_all
    intro x hx
    simpa using hp2 x hx
  dsimp only
  rw [htake, hdrop, hsa]
  dsimp only
  rw [if_neg hh0, hpath]
  have hcr : credsFrom (some "***.***".toList) = ("***.***".toList, []) := rfl
  rw [hcr]
  rfl

end URLModel


/-- Reduction of `maskUrl` when the URL constructor succeeds. -/
theorem maskUrl_parse_some {u : String} {p : URLModel.URLParts}
    (hu : u ≠ "") (hp : URLModel.parseUrl u = some p) :
    Config.maskUrl u =
      if p.username ≠ "" ∨ p.password ≠ "" then
        p.protocol ++ "//***.***@" ++ p.host ++ p.pathname
      else u := by
  unfold Config.maskUrl
  rw [if_neg hu, hp]

/-- Idempotence of `maskSecret`. -/
theorem maskSecret_idem (s : String) :
    Config.maskSecret (Config.maskSecret s) = Config.maskSecret s := by
  by_cases h : s = "" ∨ s.toList.length ≤ 10
  · have h1 : Config.maskSecret s = "***" := by
      unfold Config.maskSecret
      rw [if_pos h]
    rw [h1]
    decide
  · have hlen : 10 < s.toList.length := by
      rcases not_or.1 h with ⟨_, h2⟩
      omega
    have h1 : Config.maskSecret s =
        String.mk (s.toList.take 10 ++ List.replicate (s.toList.length - 10) '*') := by
      unfold Config.maskSecret
      rw [if_neg h]
    have hmlen : (String.mk (s.toList.take 10 ++
        List.replicate (s.toList.length - 10) '*')).toList.length = s.toList.length := by
      show (s.toList.take 10 ++ List.replicate (s.toList.length - 10) '*').length = _
      rw [List.length_append, List.length_take, List.length_replicate]
      omega
    have hm2 : ¬ (String.mk (s.toList.take 10 ++
        List.replicate (s.toList.length - 10) '*') = "" ∨
        (String.mk (s.toList.take 10 ++
          List.replicate (s.toList.length - 10) '*')).toList.length ≤ 10) := by
      push_neg
      constructor
      · intro e
        have h0 : (String.mk (s.toList.take 10 ++
            List.replicate (s.toList.length - 10) '*')).toList.length = 0 := by
          rw [e]
          rfl
        omega
      · omega
    have htake10 : (s.toList.take 10 ++
        List.replicate (s.toList.length - 10) '*').take 10 = s.toList.take 10 := by
      apply List.take_left'
      rw [List.length_take]
      omega
    have h2 : Config.maskSecret (String.mk (s.toList.take 10 ++
        List.replicate (s.toList.length - 10) '*')) =
        String.mk ((String.mk (s.toList.take 10 ++
          List.replicate (s.toList.length - 10) '*')).toList.take 10 ++
          List.replicate ((String.mk (s.toList.take 10 ++
            List.replicate (s.toList.length - 10) '*')).toList.length - 10) '*') := by
      unfold Config.maskSecret
      rw [if_neg hm2]
    rw [h1, h2, hmlen]
    show String.mk ((s.toList.take 10 ++ List.replicate (s.toList.length - 10) '*').take 10 ++
      List.replicate (s.toList.length - 10) '*') = _
    rw [htake10]

/-- Idempotence of `maskUrl`. -/
theorem maskUrl_idem (u : String) :
    Config.maskUrl (Config.maskUrl u) = Config.maskUrl u := by
  by_cases hu : u = ""
  · subst hu
    rfl
  · cases hp : URLModel.parseUrl u with
    | none =>
      have h1 : Config.maskUrl u = "***" := by
        unfold Config.maskUrl
        rw [if_neg hu, hp]
      rw [h1]
      decide
    | some p =>
      have h1 := maskUrl_parse_some hu hp
      by_cases hcreds : p.username ≠ "" ∨ p.password ≠ ""
      · rw [if_pos hcreds] at h1
        obtain ⟨scheme, hproto, hs1, hs2, hh0, hh1, hh2, ⟨t, hpatheq⟩, hp2⟩ :=
          URLModel.parseUrl_inv hp
        have hhost : p.host = String.mk p.host.toList := rfl
        have hpathmk : p.pathname = String.mk ('/' :: t) := by
          rw [← hpatheq]
          rfl
        have hp2' : ∀ ch ∈ ('/' :: t), URLModel.isPathEnd ch = false := by
          rw [← hpatheq]
          exact hp2
        have hrender := URLModel.parseUrl_render scheme p.host.toList t hs1 hs2
          hh0 hh1 hh2 hp2'
        have hmaskedform : p.protocol ++ "//***.***@" ++ p.host ++ p.pathname =
            String.mk (scheme ++ [':']) ++ "//***.***@" ++ String.mk p.host.toList ++
              String.mk ('/' :: t) := by
          rw [← hproto, ← hhost, ← hpathmk]
        have hmaskedne : p.protocol ++ "//***.***@" ++ p.host ++ p.pathname ≠ "" := by
          rw [hmaskedform]
          intro e
          rw [eq_empty_iff_toList, toList_append] at e
          rcases List.append_eq_nil.1 e with ⟨e1, e2⟩
          exact List.cons_ne_nil _ _ e2
        have hparse2 : URLModel.parseUrl
            (p.protocol ++ "//***.***@" ++ p.host ++ p.pathname) =
            some ⟨String.mk (scheme ++ [':']), "***.***", "", String.mk p.host.toList,
              String.mk ('/' :: t)⟩ := by
          rw [hmaskedform]
          exact hrender
        have hq := maskUrl_parse_some hmaskedne hparse2
        rw [if_pos (by left; simp)] at hq
        rw [h1, hq, hmaskedform]
      · rw [if_neg hcreds] at h1
        rw [h1, h1]

/-- The per-entry masking step of `getSanitized` is idempotent. -/
theorem maskEntry_idem (k : String) (v : Config.CValue) :
    Config.maskEntry k (Config.maskEntry k v) = Config.maskEntry k v := by
  by_cases h1 : k = "GOOGLE_API_KEY"
  · subst h1
    cases v with
    | s sv =>
      by_cases hsv : sv = ""
      · subst hsv
        rfl
      · have e1 : Config.maskEntry "GOOGLE_API_KEY" (.s sv) = .s (Config.maskSecret sv) := by
          unfold Config.maskEntry
          rw [if_pos rfl]
          show (if sv ≠ "" then Config.CValue.s (Config.maskSecret sv)
            else Config.CValue.s sv) = _
          rw [if_pos hsv]
        rw [e1]
        by_cases hm : Config.maskSecret sv = ""
        · have e2 : Config.maskEntry "GOOGLE_API_KEY" (.s (Config.maskSecret sv)) =
              .s (Config.maskSecret sv) := by
            unfold Config.maskEntry
            rw [if_pos rfl]
            show (if Config.maskSecret sv ≠ "" then
              Config.CValue.s (Config.maskSecret (Config.maskSecret sv))
              else Config.CValue.s (Config.maskSecret sv)) = _
            rw [if_neg (by simpa using hm)]
          rw [e2]
        · have e2 : Config.maskEntry "GOOGLE_API_KEY" (.s (Config.maskSecret sv)) =
              .s (Config.maskSecret (Config.maskSecret sv)) := by
            unfold Config.maskEntry
            rw [if_pos rfl]
            show (if Config.maskSecret sv ≠ "" then
              Config.CValue.s (Config.maskSecret (Config.maskSecret sv))
              else Config.CValue.s (Config.maskSecret sv)) = _
            rw [if_pos hm]
          rw [e2, maskSecret_idem]
    | n nv => rfl
    | b bv => rfl
    | arr av => rfl
  · by_cases h2 : k = "SESSION_SECRET"
    · subst h2
      cases v with
      | s sv =>
        by_cases hsv : sv = ""
        · subst hsv
          rfl
        · have e1 : Config.maskEntry "SESSION_SECRET" (.s sv) = .s "***HIDDEN***" := by
            unfold Config.maskEntry
            rw [if_neg (by decide), if_pos rfl]
            show (if sv ≠ "" then Config.CValue.s "***HIDDEN***"
              else Config.CValue.s sv) = _
            rw [if_pos hsv]
          rw [e1]
          rfl
      | n nv => rfl
      | b bv => rfl
      | arr av => rfl
    · by_cases h3 : k = "HTTP_PROXY"
      · subst h3
        cases v with
        | s sv =>
          by_cases hsv : sv = ""
          · subst hsv
            rfl
          · have e1 : Config.maskEntry "HTTP_PROXY" (.s sv) = .s (Config.maskUrl sv) := by
              unfold Config.maskEntry
              rw [if_neg (by decide), if_neg (by decide), if_pos rfl]
              show (if sv ≠ "" then Config.CValue.s (Config.maskUrl sv)
                else Config.CValue.s sv) = _
              rw [if_pos hsv]
            rw [e1]
            by_cases hm : Config.maskUrl sv = ""
            · have e2 : Config.maskEntry "HTTP_PROXY" (.s (Config.maskUrl sv)) =
                  .s (Config.maskUrl sv) := by
                unfold Config.maskEntry
                rw [if_neg (by decide), if_neg (by decide), if_pos rfl]
                show (if Config.maskUrl sv ≠ "" then
                  Config.CValue.s (Config.maskUrl (Config.maskUrl sv))
                  else Config.CValue.s (Config.maskUrl sv)) = _
                rw [if_neg (by simpa using hm)]
              rw [e2]
            · have e2 : Config.maskEntry "HTTP_PROXY" (.s (Config.maskUrl sv)) =
                  .s (Config.maskUrl (Config.maskUrl sv)) := by
                unfold Config.maskEntry
                rw [if_neg (by decide), if_neg (by decide), if_pos rfl]
                show (if Config.maskUrl sv ≠ "" then
                  Config.CValue.s (Config.maskUrl (Config.maskUrl sv))
                  else Config.CValue.s (Config.maskUrl sv)) = _
                rw [if_pos hm]
              rw [e2, maskUrl_idem]
        | n nv => rfl
        | b bv => rfl
        | arr av => rfl
      · have e : ∀ w, Config.maskEntry k w = w := by
          intro w
          unfold Config.maskEntry
          rw [if_neg h1, if_neg h2, if_neg h3]
        rw [e, e]

/-- C8: the secret projection is idempotent. -/
theorem c8_mask_idempotent :
    (∀ s : String, Config.maskSecret (Config.maskSecret s) = Config.maskSecret s) ∧
    (∀ u : String, Config.maskUrl (Config.maskUrl u) = Config.maskUrl u) ∧
    (∀ entries : List (String × Config.CValue),
      Config.getSanitized (Config.getSanitized entries) = Config.getSanitized entries) := by
  refine ⟨maskSecret_idem, maskUrl_idem, ?_⟩
  intro entries
  unfold Config.getSanitized
  rw [List.map_map]
  apply List.map_congr_left
  intro e _
  show (e.1, Config.maskEntry e.1 (Config.maskEntry e.1 e.2)) = (e.1, Config.maskEntry e.1 e.2)
  rw [maskEntry_idem]

/-! ## C3 and C4: startup configuration loading -/

namespace Config

/-- The entry list produced by a startup pass in which every field
validates: each field mapped to its validated or default value. -/
def validatedEntries (env : String → Option String) (isProduction : Bool) :
    List (String × CValue) :=
  (CONFIG_SCHEMA isProduction).map fun ks => (ks.1, (validateValue ks.1 (env ks.1) ks.2).value)

/-- The schema entry for the session secret. -/
def sessionSecretSchema (isProduction : Bool) : FieldSchema :=
  { type := .string, default := .s "", minLength := some 32, required := isProduction }

/-- The session secret entry is the ninth field of the schema. -/
theorem secret_mem_schema (p : Bool) :
    ("SESSION_SECRET", sessionSecretSchema p) ∈ CONFIG_SCHEMA p := by
  unfold CONFIG_SCHEMA sessionSecretSchema
  exact .tail _ (.tail _ (.tail _ (.tail _ (.tail _ (.tail _ (.tail _ (.tail _ (.head _))))))))

/-- When every field validates, the per-field pass aggregates no error
and produces exactly the validated entry list. -/
theorem validateFields_all_valid (env : String → Option String)
    (L : List (String × FieldSchema))
    (h : ∀ ks ∈ L, (validateValue ks.1 (env ks.1) ks.2).valid = true) :
    validateFields env L =
      ([], L.map fun ks => (ks.1, (validateValue ks.1 (env ks.1) ks.2).value)) := by
  induction L with
  | nil => rfl
  | cons ks rest ih =>
    obtain ⟨key, schema⟩ := ks
    have hk := h (key, schema) (List.mem_cons_self _ _)
    have hr := ih (fun x hx => h x (List.mem_cons_of_mem _ hx))
    simp only [validateFields, hr, List.map_cons]
    rw [if_pos hk]
    simp

/-- Every error of an invalid field of the schema appears in the
aggregated error list. -/
theorem validateFields_error_mem (env : String → Option String)
    (L : List (String × FieldSchema)) {key : String} {sch : FieldSchema} {e : String}
    (hmem : (key, sch) ∈ L)
    (hinv : (validateValue key (env key) sch).valid = false)
    (he : e ∈ (validateValue key (env key) sch).errors) :
    e ∈ (validateFields env L).1 := by
  induction L with
  | nil => cases hmem
  | cons ks rest ih =>
    obtain ⟨k0, s0⟩ := ks
    rcases List.mem_cons.1 hmem with heq | hmem'
    · have hk : key = k0 := congrArg Prod.fst heq
      have hs : sch = s0 := congrArg Prod.snd heq
      subst hk hs
      simp only [validateFields]
      rw [if_neg (by simp [hinv])]
      exact List.mem_append.2 (.inl he)
    · simp only [validateFields]
      exact List.mem_append.2 (.inr (ih hmem'))

/-- Lookup in a mapped entry list with distinct keys finds the image of
the unique schema entry for that key. -/
theorem lookup_map_of_nodup (f : String × FieldSchema → CValue)
    (L : List (String × FieldSchema))
    (hnd : (L.map Prod.fst).Nodup) {key : String} {sch : FieldSchema}
    (hmem : (key, sch) ∈ L) :
    (L.map fun ks => (ks.1, f ks)).lookup key = some (f (key, sch)) := by
  induction L with
  | nil => cases hmem
  | cons ks rest ih =>
    obtain ⟨k0, s0⟩ := ks
    rcases List.mem_cons.1 hmem with heq | hmem'
    · have hk : key = k0 := congrArg Prod.fst heq
      have hs : sch = s0 := congrArg Prod.snd heq
      subst hk hs
      simp [List.lookup]
    · have hnd' := (List.nodup_cons.1 hnd).2
      have hk0 : k0 ∉ rest.map Prod.fst := (List.nodup_cons.1 hnd).1
      have hkey : key ∈ rest.map Prod.fst := List.mem_map.2 ⟨(key, sch), hmem', rfl⟩
      have hne : (key == k0) = false := by
        simp only [beq_eq_false_iff_ne, ne_eq]
        intro e
        subst e
        exact hk0 hkey
      simp only [List.map_cons, List.lookup, hne]
      exact ih hnd' hmem'

/-- Replacing a present key makes lookup return the new value. -/
theorem lookup_setEntry_self {l : List (String × CValue)} {k : String} {w : CValue}
    (hw : l.lookup k = some w) (v : CValue) :
    (setEntry k v l).lookup k = some v := by
  induction l with
  | nil => cases hw
  | cons e rest ih =>
    obtain ⟨k0, v0⟩ := e
    by_cases hk : k0 = k
    · subst hk
      simp [setEntry, List.lookup]
    · have hne : (k == k0) = false := by
        simp only [beq_eq_false_iff_ne, ne_eq]
        exact fun e => hk e.symm
      simp only [List.lookup, hne] at hw
      simp only [setEntry, if_neg hk, List.lookup, hne]
      exact ih hw

/-- Replacing one key leaves lookups of other keys unchanged. -/
theorem lookup_setEntry_ne (l : List (String × CValue)) (k k' : String) (v : CValue)
    (h : k' ≠ k) : (setEntry k v l).lookup k' = l.lookup k' := by
  induction l with
  | nil => rfl
  | cons e rest ih =>
    obtain ⟨k0, v0⟩ := e
    by_cases hk : k0 = k
    · subst hk
      have hne : (k' == k0) = false := by
        simp only [beq_eq_false_iff_ne, ne_eq]
        exact h
      simp [setEntry, List.lookup, hne]
    · simp only [setEntry, if_neg hk, List.lookup]
      by_cases hk' : (k' == k0) = true
      · simp [hk']
      · simp only [Bool.not_eq_true] at hk'
        simp [hk', ih]

end Config

/-- C3: with the session secret absent or empty in the environment, a
production-mode load throws the aggregated configuration failure (whose
list contains the missing-secret message) and returns no snapshot; a
non-production load in which every field validates and the filesystem
checks pass succeeds, synthesizing the generated secret into the
returned frozen snapshot while every other field keeps its validated or
default value. -/
theorem c3_secret_startup (env : String → Option String) (fs : Config.FsModel)
    (genSecret : String)
    (hsec : env "SESSION_SECRET" = none ∨ env "SESSION_SECRET" = some "") :
    (∃ errs, Config.loadConfig env fs true genSecret = .error errs ∧
      "SESSION_SECRET is required but not set" ∈ errs) ∧
    ((∀ ks ∈ Config.CONFIG_SCHEMA false,
        (Config.validateValue ks.1 (env ks.1) ks.2).valid = true) →
     (∀ pk ∈ Config.dataPaths,
        fs.pathExists (Config.pathString
          ((Config.validatedEntries env false).lookup pk)) = true) →
     ((Config.validatedEntries env false).lookup "ENABLE_FILE_LOGGING" = some (.b true) →
        fs.pathExists (Config.pathString
          ((Config.validatedEntries env false).lookup "LOG_DIR")) = true ∨
        fs.mkdirOk = true) →
     ∃ o, Config.loadConfig env fs false genSecret = .ok o ∧
       o.frozen = true ∧
       Config.get o "SESSION_SECRET" = some (.s genSecret) ∧
       ∀ ks ∈ Config.CONFIG_SCHEMA false, ks.1 ≠ "SESSION_SECRET" →
         Config.get o ks.1 = some (Config.validateValue ks.1 (env ks.1) ks.2).value) := by
  constructor
  · have hval : Config.validateValue "SESSION_SECRET" (env "SESSION_SECRET")
        (Config.sessionSecretSchema true) =
        { valid := false, errors := ["SESSION_SECRET is required but not set"],
          value := .s "" } := by
      rcases hsec with h | h <;> rw [h] <;> decide
    have hmeme : "SESSION_SECRET is required but not set" ∈
        (Config.validateFields env (Config.CONFIG_SCHEMA true)).1 := by
      apply Config.validateFields_error_mem env _ (Config.secret_mem_schema true)
      · rw [hval]
      · rw [hval]
        exact List.mem_cons_self _ _
    have hne : (Config.validateFields env (Config.CONFIG_SCHEMA true)).1 ≠ [] :=
      List.ne_nil_of_mem hmeme
    refine ⟨(Config.validateFields env (Config.CONFIG_SCHEMA true)).1, ?_, hmeme⟩
    simp only [Config.loadConfig]
    rw [if_pos hne]
  · intro hvalid hfiles hlog
    have hvf : Config.validateFields env (Config.CONFIG_SCHEMA false) =
        ([], Config.validatedEntries env false) :=
      Config.validateFields_all_valid env _ hvalid
    have hnd : ((Config.CONFIG_SCHEMA false).map Prod.fst).Nodup := by decide
    have hsecval : Config.validateValue "SESSION_SECRET" (env "SESSION_SECRET")
        (Config.sessionSecretSchema false) =
        { valid := true, errors := [], value := .s "" } := by
      rcases hsec with h | h <;> rw [h] <;> decide
    have hlookup : (Config.validatedEntries env false).lookup "SESSION_SECRET" =
        some (.s "") := by
      have hl := Config.lookup_map_of_nodup
        (fun ks => (Config.validateValue ks.1 (env ks.1) ks.2).value)
        (Config.CONFIG_SCHEMA false) hnd (Config.secret_mem_schema false)
      rw [show Config.validatedEntries env false =
        ((Config.CONFIG_SCHEMA false).map fun ks =>
          (ks.1, (Config.validateValue ks.1 (env ks.1) ks.2).value)) from rfl, hl]
      show some (Config.validateValue "SESSION_SECRET" (env "SESSION_SECRET")
        (Config.sessionSecretSchema false)).value = _
      rw [hsecval]
    have hfilter : (Config.dataPaths.filter fun pk =>
        ¬ fs.pathExists (Config.pathString
          ((Config.validatedEntries env false).lookup pk))) = [] := by
      rw [List.filter_eq_nil_iff]
      intro pk hpk
      simp [hfiles pk hpk]
    have hlogneg : ¬ (((Config.validatedEntries env false).lookup "ENABLE_FILE_LOGGING" =
          some (Config.CValue.b true)) ∧
        ¬ fs.pathExists (Config.pathString
          ((Config.validatedEntries env false).lookup "LOG_DIR")) = true ∧
        ¬ fs.mkdirOk = true) := by
      rintro ⟨ha, hb, hc⟩
      rcases hlog ha with h | h
      · exact hb h
      · exact hc h
    refine ⟨⟨Config.setEntry "SESSION_SECRET" (.s genSecret)
        (Config.validatedEntries env false), true⟩, ?_, rfl, ?_, ?_⟩
    · simp only [Config.loadConfig, hvf]
      rw [if_neg (by simp), hfilter]
      rw [if_neg (by simp)]
      rw [if_neg hlogneg]
      rw [if_neg (by rintro ⟨h, _⟩; cases h)]
      rw [hlookup]
      rw [if_pos (by decide)]
    · show (Config.setEntry "SESSION_SECRET" (.s genSecret)
        (Config.validatedEntries env false)).lookup "SESSION_SECRET" = some (.s genSecret)
      exact Config.lookup_setEntry_self hlookup _
    · intro ks hks hne
      obtain ⟨key, sch⟩ := ks
      show (Config.setEntry "SESSION_SECRET" (.s genSecret)
        (Config.validatedEntries env false)).lookup key = _
      rw [Config.lookup_setEntry_ne _ _ _ _ hne]
      exact Config.lookup_map_of_nodup _ _ hnd hks

/-- C4: a snapshot returned by a successful load is frozen; property
assignment on it is a no-op, and `get` and `getAll` observe the creation
values after any attempted mutation. -/
theorem c4_frozen_snapshot (env : String → Option String) (fs : Config.FsModel)
    (isProduction : Bool) (genSecret : String) (o : Config.FrozenObj)
    (h : Config.loadConfig env fs isProduction genSecret = .ok o) :
    o.frozen = true ∧
    (∀ k v, Config.objSet o k v = o) ∧
    (∀ k v k', Config.get (Config.objSet o k v) k' = Config.get o k') ∧
    (∀ k v, Config.getAll (Config.objSet o k v) = Config.getAll o) := by
  have hf : o.frozen = true := by
    simp only [Config.loadConfig] at h
    split at h
    · cases h
    · split at h
      · cases h
      · split at h
        · cases h
        · split at h
          · cases h
          · have ho := Except.ok.inj h
            rw [← ho]
  have hset : ∀ k v, Config.objSet o k v = o := by
    intro k v
    unfold Config.objSet
    rw [if_pos hf]
  exact ⟨hf, hset, fun k v k' => by rw [hset], fun k v => by rw [hset]⟩

def envW : String → Option String := fun _ => none

def fsW : Config.FsModel := ⟨fun _ => true, true⟩

def snapW : Config.FrozenObj :=
  match Config.loadConfig envW fsW false "gensecret" with
  | .ok o => o
  | .error _ => default

/-- C3 witness: the theorem applied to the empty environment with an
all-present filesystem. -/
theorem c3_witness :
    (∃ errs, Config.loadConfig envW fsW true "gensecret" = .error errs ∧
      "SESSION_SECRET is required but not set" ∈ errs) ∧
    (∃ o, Config.loadConfig envW fsW false "gensecret" = .ok o ∧
      o.frozen = true ∧
      Config.get o "SESSION_SECRET" = some (.s "gensecret") ∧
      ∀ ks ∈ Config.CONFIG_SCHEMA false, ks.1 ≠ "SESSION_SECRET" →
        Config.get o ks.1 = some (Config.validateValue ks.1 (envW ks.1) ks.2).value) :=
  ⟨(c3_secret_startup envW fsW "gensecret" (Or.inl rfl)).1,
   (c3_secret_startup envW fsW "gensecret" (Or.inl rfl)).2
     (by decide) (by decide) (by decide)⟩

/-- C4 witness: the theorem applied to the snapshot loaded from the
empty environment. -/
theorem c4_witness :
    Config.loadConfig envW fsW false "gensecret" = .ok snapW ∧
    snapW.frozen = true ∧
    Config.objSet snapW "PORT" (.n 1) = snapW ∧
    Config.get (Config.objSet snapW "PORT" (.n 1)) "PORT" = Config.get snapW "PORT" ∧
    Config.getAll (Config.objSet snapW "PORT" (.n 1)) = Config.getAll snapW := by
  have hload : Config.loadConfig envW fsW false "gensecret" = .ok snapW := by rfl
  have h := c4_frozen_snapshot envW fsW false "gensecret" snapW hload
  exact ⟨hload, h.1, h.2.1 "PORT" (.n 1), h.2.2.1 "PORT" (.n 1) "PORT",
    h.2.2.2 "PORT" (.n 1)⟩
